import Mathlib

/-!
Shallow embedding of the play_count_dir crawler (Rust) for checking its
natural-language specification.

Each definition below is translated from the repository source; the file
and line references point into the Rust sources.  Samples, durations and
rates are modelled as rational numbers; machine counters (usize) are
modelled as Nat, or as Int where non-negativity itself is the property
under study.
-/

namespace CountDir

/-! ### Rolling history window (main.rs lines 1474-1602, history.rs lines 83-169) -/

/-- Constant MAX_HISTORY from main.rs line 28. -/
def MAX_HISTORY : Nat := 10

/-- Struct HistoryVec from main.rs lines 1474-1483: a capacity, the stored
window of samples, and a cached average.  Sample data is modelled as a
rational number. -/
structure HistoryVec where
  capacity : Nat
  inner : List ℚ
  average : ℚ
deriving DecidableEq

/-- Default instance for HistoryVec, main.rs lines 1485-1496: capacity is
MAX_HISTORY, the window starts empty, the average starts at the numeric
default (zero). -/
def HistoryVec.default : HistoryVec :=
  { capacity := MAX_HISTORY, inner := [], average := 0 }

/-- HistoryVec push, main.rs lines 1585-1593 (identically history.rs lines
156-164).  When the window is at capacity the code calls Vec pop, which
removes the LAST (most recently appended) element; then the new sample is
appended and the average is recomputed as the sum of the stored samples
divided by their count, with the numeric default (zero) substituted when
the division fails (empty window). -/
def HistoryVec.push (h : HistoryVec) (k : ℚ) : HistoryVec :=
  let popped := if h.inner.length = h.capacity then h.inner.dropLast else h.inner
  let appended := popped ++ [k]
  { capacity := h.capacity
    inner := appended
    average :=
      if appended.length = 0 then 0
      else appended.sum / (appended.length : ℚ) }

theorem HistoryVec.push_capacity (h : HistoryVec) (k : ℚ) :
    (h.push k).capacity = h.capacity := rfl

theorem HistoryVec.push_inner (h : HistoryVec) (k : ℚ) :
    (h.push k).inner =
      (if h.inner.length = h.capacity then h.inner.dropLast else h.inner) ++ [k] := rfl

theorem HistoryVec.push_average (h : HistoryVec) (k : ℚ) :
    (h.push k).average = (h.push k).inner.sum / ((h.push k).inner.length : ℚ) := by
  unfold HistoryVec.push
  simp

theorem HistoryVec.push_length_le (h : HistoryVec) (k : ℚ)
    (hle : h.inner.length ≤ h.capacity) (hpos : 0 < h.capacity) :
    (h.push k).inner.length ≤ h.capacity := by
  rw [HistoryVec.push_inner, List.length_append]
  by_cases hc : h.inner.length = h.capacity
  · rw [if_pos hc]
    simp [List.length_dropLast]
    omega
  · rw [if_neg hc]
    simp
    omega

theorem foldl_push_average (ks : List ℚ) : ∀ (h : HistoryVec) (k : ℚ),
    (List.foldl HistoryVec.push (h.push k) ks).average =
      (List.foldl HistoryVec.push (h.push k) ks).inner.sum /
        ((List.foldl HistoryVec.push (h.push k) ks).inner.length : ℚ) := by
  induction ks with
  | nil => intro h k; simpa using HistoryVec.push_average h k
  | cons k2 ks ih =>
      intro h k
      simpa [List.foldl] using ih (h.push k) k2

theorem foldl_push_length (ks : List ℚ) : ∀ (h : HistoryVec),
    0 < h.capacity → h.inner.length ≤ h.capacity →
    (List.foldl HistoryVec.push h ks).capacity = h.capacity ∧
      (List.foldl HistoryVec.push h ks).inner.length ≤ h.capacity := by
  induction ks with
  | nil => intro h _ hle; exact ⟨rfl, hle⟩
  | cons k ks ih =>
      intro h hpos hle
      have hcap : (h.push k).capacity = h.capacity := rfl
      have hlen : (h.push k).inner.length ≤ (h.push k).capacity := by
        rw [hcap]; exact HistoryVec.push_length_le h k hle hpos
      have := ih (h.push k) (by rw [hcap]; exact hpos) hlen
      simpa [List.foldl, hcap] using this

/-- C4: after every push the cached average equals the sum of the stored
window samples divided by their count, and the window never exceeds
MAX_HISTORY samples, for any sequence of pushes starting from the default
HistoryVec. -/
theorem C4_history_average_invariant (ks : List ℚ) (hne : ks ≠ []) :
    (List.foldl HistoryVec.push HistoryVec.default ks).average =
      (List.foldl HistoryVec.push HistoryVec.default ks).inner.sum /
        ((List.foldl HistoryVec.push HistoryVec.default ks).inner.length : ℚ) ∧
    (List.foldl HistoryVec.push HistoryVec.default ks).inner.length ≤ MAX_HISTORY := by
  cases ks with
  | nil => exact absurd rfl hne
  | cons k ks =>
      constructor
      · simpa [List.foldl] using foldl_push_average ks HistoryVec.default k
      · have h := foldl_push_length (k :: ks) HistoryVec.default (by decide) (by simp [HistoryVec.default])
        exact h.2

theorem C4_witness :
    ([(1 : ℚ), 2] ≠ []) ∧
    ((List.foldl HistoryVec.push HistoryVec.default [(1 : ℚ), 2]).average =
      (List.foldl HistoryVec.push HistoryVec.default [(1 : ℚ), 2]).inner.sum /
        ((List.foldl HistoryVec.push HistoryVec.default [(1 : ℚ), 2]).inner.length : ℚ) ∧
    (List.foldl HistoryVec.push HistoryVec.default [(1 : ℚ), 2]).inner.length ≤ MAX_HISTORY) :=
  ⟨by decide, C4_history_average_invariant [(1 : ℚ), 2] (by decide)⟩

/-- C3 counterexample: with a window of capacity 3, pushing the samples 1,
2, 3, 4 in order leaves the window as [1, 2, 4] (the push at capacity
evicted the NEWEST sample 3, because Vec pop removes the last element) and
the average is 7/3, not the claimed mean(2, 3, 4) = 3. -/
theorem C3_counterexample :
    (((((⟨3, [], 0⟩ : HistoryVec).push 1).push 2).push 3).push 4).inner = [1, 2, 4] ∧
    (((((⟨3, [], 0⟩ : HistoryVec).push 1).push 2).push 3).push 4).average = 7 / 3 ∧
    ¬ (((((⟨3, [], 0⟩ : HistoryVec).push 1).push 2).push 3).push 4).average = 3 := by
  refine ⟨by decide, by norm_num [HistoryVec.push], by norm_num [HistoryVec.push]⟩

/-- C3 (amended): for every push onto a window already holding capacity
many samples, the sample evicted is the most recently appended one (the
code pops from the tail of the Vec), so pushing durations 1, 2, 3, 4 onto
a capacity-3 window yields the window [1, 2, 4] with average 7/3. -/
theorem C3_amended_newest_evicted (h : HistoryVec) (k : ℚ)
    (hfull : h.inner.length = h.capacity) :
    (h.push k).inner = h.inner.dropLast ++ [k] ∧
    (((((⟨3, [], 0⟩ : HistoryVec).push 1).push 2).push 3).push 4).inner = [1, 2, 4] ∧
    (((((⟨3, [], 0⟩ : HistoryVec).push 1).push 2).push 3).push 4).average = 7 / 3 := by
  refine ⟨?_, by decide, by norm_num [HistoryVec.push]⟩
  rw [HistoryVec.push_inner, if_pos hfull]

theorem C3_amended_witness :
    ((⟨3, [5, 6, 7], 6⟩ : HistoryVec).inner.length = 3) ∧
    ((⟨3, [5, 6, 7], 6⟩ : HistoryVec).push 9).inner = [5, 6, 9] :=
  ⟨by decide, by
    have h := C3_amended_newest_evicted (⟨3, [5, 6, 7], 6⟩ : HistoryVec) 9 (by decide)
    rw [h.1]
    decide⟩

/-! ### Work slices and the work buffer (main.rs lines 1790-1954) -/

/-- Enum WorkSource, main.rs lines 1813-1817. -/
inductive WorkSource
  | Local
  | Shared
deriving DecidableEq

/-- Struct WorkSlice, main.rs lines 1819-1826: a view into a shared backing
buffer.  The buffer handle (an Arc of the path vector) is modelled by a
numeric identity; the field named end in the source is called stop here
because end is reserved in Lean. -/
structure WorkSlice where
  source : WorkSource
  buf : Nat
  start : Nat
  stop : Nat
  cursor : Nat
deriving DecidableEq

/-- WorkSlice constructor, main.rs lines 1829-1837: the cursor starts at
start. -/
def WorkSlice.new (source : WorkSource) (buf start stop : Nat) : WorkSlice :=
  { source := source, buf := buf, start := start, stop := stop, cursor := start }

/-- WorkSlice length, main.rs lines 1843-1845. -/
def WorkSlice.len (s : WorkSlice) : Nat := s.stop - s.start

/-- WorkSlice split, main.rs lines 1847-1866: when split_size exceeds the
length, the slice is returned whole with no remainder; otherwise two
slices over the same backing buffer are produced, covering start up to
start + split_size and start + split_size up to the old end. -/
def WorkSlice.split (s : WorkSlice) (split_size : Nat) : WorkSlice × Option WorkSlice :=
  if split_size > s.len then
    (s, none)
  else
    (WorkSlice.new s.source s.buf s.start (s.start + split_size),
     some (WorkSlice.new s.source s.buf (s.start + split_size) s.stop))

/-- Struct WorkBuf, main.rs lines 1790-1811: the shared backing vector of
paths (paths modelled as numeric identifiers), an identity for the shared
Arc handle, the pending_from cursor, and the record of ranges shared with
other threads. -/
structure WorkBuf where
  buf : List Nat
  bufId : Nat
  pending_from : Nat
  shared_with_others : List (Nat × Nat)
deriving DecidableEq

/-- WorkBuf length, main.rs lines 1911-1914. -/
def WorkBuf.len (wb : WorkBuf) : Nat := wb.buf.length

/-- WorkBuf next_pending_from, main.rs lines 1921-1924. -/
def WorkBuf.next_pending_from (wb : WorkBuf) (size : Nat) : Nat :=
  min (wb.pending_from + size) wb.len

/-- WorkBuf get_work_slice, main.rs lines 1926-1931: claims the range from
pending_from to next_pending_from and advances the cursor. -/
def WorkBuf.get_work_slice (wb : WorkBuf) (source : WorkSource) (size : Nat) :
    WorkSlice × WorkBuf :=
  let start := wb.pending_from
  let pf := wb.next_pending_from size
  (WorkSlice.new source wb.bufId start pf, { wb with pending_from := pf })

/-- WorkBuf get_work_for_local, main.rs lines 1933-1936. -/
def WorkBuf.get_work_for_local (wb : WorkBuf) (size : Nat) : WorkSlice × WorkBuf :=
  wb.get_work_slice WorkSource.Local size

/-- WorkBuf get_work_for_sharing, main.rs lines 1938-1943: same claim
mechanism tagged Shared, and the claimed range is recorded in
shared_with_others. -/
def WorkBuf.get_work_for_sharing (wb : WorkBuf) (size : Nat) : WorkSlice × WorkBuf :=
  let r := wb.get_work_slice WorkSource.Shared size
  (r.1, { r.2 with shared_with_others := r.2.shared_with_others ++ [(r.1.start, r.1.stop)] })

/-- WorkBuf total_pending, main.rs lines 1945-1947. -/
def WorkBuf.total_pending (wb : WorkBuf) : Nat := wb.len - wb.pending_from

/-- WorkBuf extend, main.rs lines 1949-1953: append-only growth of the
backing vector. -/
def WorkBuf.extend (wb : WorkBuf) (paths : List Nat) : WorkBuf :=
  { wb with buf := wb.buf ++ paths }

/-- C8 counterexample: for a slice of length 2, split 2 (n equal to the
length, so n >= len holds) does NOT return a None remainder as the claim
states: the source tests split_size > len, so at n = len it returns the
full range plus a Some empty remainder slice. -/
theorem C8_counterexample :
    ((WorkSlice.new WorkSource.Local 0 0 2).split 2).2 ≠ none ∧
    ((WorkSlice.new WorkSource.Local 0 0 2).split 2).2 =
      some (WorkSlice.new WorkSource.Local 0 2 2) := by
  decide

/-- C8 (amended): split returns the slice unchanged with no remainder
exactly when n is strictly greater than the length; for n at most the
length it returns two slices over the same backing buffer covering start
up to start + n and start + n up to the old end, both keeping the
original source tag (at n equal to the length the remainder is an empty
slice rather than None). -/
theorem C8_amended_split (s : WorkSlice) (n : Nat) :
    (n > s.len → s.split n = (s, none)) ∧
    (n ≤ s.len →
      s.split n = (WorkSlice.new s.source s.buf s.start (s.start + n),
                   some (WorkSlice.new s.source s.buf (s.start + n) s.stop))) := by
  constructor
  · intro hgt
    unfold WorkSlice.split
    rw [if_pos hgt]
  · intro hle
    unfold WorkSlice.split
    rw [if_neg (by omega)]

theorem C8_amended_witness :
    ((WorkSlice.new WorkSource.Shared 3 2 6).split 7 =
      (WorkSlice.new WorkSource.Shared 3 2 6, none)) ∧
    ((WorkSlice.new WorkSource.Shared 3 2 6).split 3 =
      (WorkSlice.new WorkSource.Shared 3 2 5,
       some (WorkSlice.new WorkSource.Shared 3 5 6))) :=
  ⟨(C8_amended_split (WorkSlice.new WorkSource.Shared 3 2 6) 7).1 (by decide),
   (C8_amended_split (WorkSlice.new WorkSource.Shared 3 2 6) 3).2 (by decide)⟩

/-- C9: get_work_for_local claims exactly the range from pending_from to
pending_from + n capped at the current buffer length, advances
pending_from to the claimed end (never decreasing it), leaves the buffer
itself unchanged, and a following claim (here a sharing claim, as in the
concrete scenario of the spec) starts exactly where the previous claim
stopped, so successive claims are disjoint. -/
theorem C9_get_work_for_local (wb : WorkBuf) (n m : Nat)
    (hinv : wb.pending_from ≤ wb.len) :
    (wb.get_work_for_local n).1.start = wb.pending_from ∧
    (wb.get_work_for_local n).1.stop = min (wb.pending_from + n) wb.len ∧
    (wb.get_work_for_local n).2.pending_from = (wb.get_work_for_local n).1.stop ∧
    wb.pending_from ≤ (wb.get_work_for_local n).2.pending_from ∧
    (wb.get_work_for_local n).2.buf = wb.buf ∧
    ((wb.get_work_for_local n).2.get_work_for_sharing m).1.start =
      (wb.get_work_for_local n).1.stop ∧
    ((wb.get_work_for_local n).2.get_work_for_sharing m).1.stop =
      min ((wb.get_work_for_local n).1.stop + m) wb.len ∧
    ((wb.get_work_for_local n).2.get_work_for_sharing m).2.total_pending =
      wb.len - min (min (wb.pending_from + n) wb.len + m) wb.len := by
  refine ⟨rfl, rfl, rfl, ?_, rfl, rfl, rfl, rfl⟩
  show wb.pending_from ≤ min (wb.pending_from + n) wb.len
  exact le_min (Nat.le_add_right _ _) hinv

theorem C9_witness :
    ((WorkBuf.mk [0, 1, 2, 3, 4, 5, 6, 7, 8, 9] 0 0 []).get_work_for_local 4).1.start = 0 ∧
    ((WorkBuf.mk [0, 1, 2, 3, 4, 5, 6, 7, 8, 9] 0 0 []).get_work_for_local 4).1.stop = 4 ∧
    (((WorkBuf.mk [0, 1, 2, 3, 4, 5, 6, 7, 8, 9] 0 0
        []).get_work_for_local 4).2.get_work_for_sharing 3).1.start = 4 ∧
    (((WorkBuf.mk [0, 1, 2, 3, 4, 5, 6, 7, 8, 9] 0 0
        []).get_work_for_local 4).2.get_work_for_sharing 3).1.stop = 7 ∧
    (((WorkBuf.mk [0, 1, 2, 3, 4, 5, 6, 7, 8, 9] 0 0
        []).get_work_for_local 4).2.get_work_for_sharing 3).2.total_pending = 3 := by
  have h := C9_get_work_for_local (WorkBuf.mk [0, 1, 2, 3, 4, 5, 6, 7, 8, 9] 0 0 []) 4 3
    (by decide)
  exact ⟨h.1, h.2.1.trans (by decide), (h.2.2.2.2.2.1).trans (h.2.1.trans (by decide)),
    (h.2.2.2.2.2.2.1).trans (by decide), (h.2.2.2.2.2.2.2).trans (by decide)⟩

/-! ### ThreadHandle bookkeeping (main.rs lines 1968-1977 and 2257-2264) -/

/-- The two counters of struct ThreadHandle (main.rs lines 1968-1977) that
update_dirs_processed touches.  They are usize in the source; they are
modelled as integers so that absence of underflow is expressible. -/
structure ThreadHandle where
  in_flight : Int
  new_dirs_processed : Int
deriving DecidableEq

/-- ThreadHandle update_dirs_processed, main.rs lines 2257-2264: the
processed total grows by newly_processed, and in_flight is clamped to 0
when newly_processed exceeds it, otherwise reduced by newly_processed. -/
def ThreadHandle.update_dirs_processed (h : ThreadHandle) (newly_processed : Int) :
    ThreadHandle :=
  { new_dirs_processed := h.new_dirs_processed + newly_processed
    in_flight :=
      if h.in_flight < newly_processed then 0 else h.in_flight - newly_processed }

/-- C10: update_dirs_processed never drives in_flight below zero: when
newly_processed exceeds the current in_flight the counter is set to 0,
otherwise it decreases by exactly newly_processed, so it stays a valid
non-negative count. -/
theorem C10_update_dirs_processed_no_underflow (h : ThreadHandle) (newly : Int)
    (hin : 0 ≤ h.in_flight) (hnew : 0 ≤ newly) :
    0 ≤ (h.update_dirs_processed newly).in_flight ∧
    (h.update_dirs_processed newly).in_flight =
      (if newly > h.in_flight then 0 else h.in_flight - newly) ∧
    (h.update_dirs_processed newly).new_dirs_processed =
      h.new_dirs_processed + newly := by
  unfold ThreadHandle.update_dirs_processed
  refine ⟨?_, rfl, rfl⟩
  dsimp only
  split <;> omega

theorem C10_witness :
    0 ≤ ((ThreadHandle.mk 3 0).update_dirs_processed 5).in_flight ∧
    ((ThreadHandle.mk 3 0).update_dirs_processed 5).in_flight = 0 ∧
    ((ThreadHandle.mk 7 2).update_dirs_processed 5).in_flight = 2 := by
  have h1 := C10_update_dirs_processed_no_underflow (ThreadHandle.mk 3 0) 5
    (by decide) (by decide)
  have h2 := C10_update_dirs_processed_no_underflow (ThreadHandle.mk 7 2) 5
    (by decide) (by decide)
  exact ⟨h1.1, h1.2.1.trans (by decide), h2.2.1.trans (by decide)⟩

/-! ### Counting lock (count_lock.rs lines 14-91, semaphore.rs lines 84-112) -/

/-- Struct CountingLock, count_lock.rs lines 14-19: a limit, the current
count, and the parked flag. -/
structure CountingLock where
  limit : Nat
  curr : Nat
  parked : Bool
deriving DecidableEq

/-- CountingLock constructor, count_lock.rs lines 21-29. -/
def CountingLock.new (max_lim : Nat) : CountingLock :=
  { limit := max_lim, curr := 0, parked := false }

/-- Counter increment, count_lock.rs lines 52-59.  The guard compares curr
with limit; the statement in the success branch calls add on a COPY of the
counter (a pure std::ops::Add call through an immutable receiver) and
discards the result, so the stored counter is never changed.  The
translation reflects that: the returned state equals the input state in
both branches. -/
def CountingLock.increment (c : CountingLock) : Bool × CountingLock :=
  if c.curr < c.limit then (true, c) else (false, c)

/-- Counter decrement, count_lock.rs lines 63-70.  The guard compares curr
with zero; the success branch likewise discards the subtraction and,
moreover, returns false, so decrement reports failure in both branches and
never changes the state. -/
def CountingLock.decrement (c : CountingLock) : Bool × CountingLock :=
  if 0 < c.curr then (false, c) else (false, c)

/-- RawPredicateLock lock for CountingLock, semaphore.rs lines 85-89: the
try-lock attempt succeeds exactly when increment reports success. -/
def CountingLock.lock (c : CountingLock) : Bool × CountingLock := c.increment

/-- RawPredicateLock unlock for CountingLock, semaphore.rs lines 91-94:
delegates to decrement. -/
def CountingLock.unlock (c : CountingLock) : Bool × CountingLock := c.decrement

/-- RawPredicateLock is_locked for CountingLock, semaphore.rs lines
108-111: returns curr < limit. -/
def CountingLock.is_locked (c : CountingLock) : Bool := decide (c.curr < c.limit)

/-- C5 evaluation at the failing input: with limit 2 and three consecutive
try_lock calls, the code reports success all three times and the counter
is still 0 afterwards, because increment discards its arithmetic; and
unlock on a counter of 1 reports false and leaves the counter at 1,
because decrement returns false in both branches and never stores the
subtraction.  The claim (first two succeed, third fails, unlock decrements)
is the documented intent, which the code contradicts. -/
theorem C5_counter_never_changes :
    ((CountingLock.new 2).lock).1 = true ∧
    (((CountingLock.new 2).lock).2.lock).1 = true ∧
    ((((CountingLock.new 2).lock).2.lock).2.lock).1 = true ∧
    ((((CountingLock.new 2).lock).2.lock).2.lock).2.curr = 0 ∧
    ((CountingLock.mk 2 1 false).unlock).1 = false ∧
    ((CountingLock.mk 2 1 false).unlock).2.curr = 1 := by
  decide

/-- C6 evaluation at the failing input: a fresh semaphore state with limit
2 and current count 0 has all its capacity remaining, yet is_locked
returns true (the code computes curr < limit, the inverse of the claimed
curr >= limit); and at full capacity (curr = limit = 2) is_locked returns
false although the claim requires true. -/
theorem C6_is_locked_inverted :
    (CountingLock.new 2).is_locked = true ∧
    ¬ ((CountingLock.new 2).curr ≥ (CountingLock.new 2).limit) ∧
    (CountingLock.mk 2 2 false).is_locked = false ∧
    (CountingLock.mk 2 2 false).curr ≥ (CountingLock.mk 2 2 false).limit := by
  decide

/-! ### Predicate lock notify_one (predicate_lock.rs lines 17-183) -/

/-- The observable state of a RawPredicateLock (predicate_lock.rs lines
19-58): the value its is_locked method returns and the value its
has_parked method returns.  notify_one consumes the trait object only
through these two bits plus the mark_parked and mark_unparked setters. -/
structure RawPredicateLock where
  locked : Bool
  parked : Bool
deriving DecidableEq

def RawPredicateLock.is_locked (l : RawPredicateLock) : Bool := l.locked

def RawPredicateLock.has_parked (l : RawPredicateLock) : Bool := l.parked

def RawPredicateLock.mark_parked (l : RawPredicateLock) : RawPredicateLock :=
  { l with parked := true }

def RawPredicateLock.mark_unparked (l : RawPredicateLock) : RawPredicateLock :=
  { l with parked := false }

/-- has_parked_then_is_locked, predicate_lock.rs lines 37-40: when the
parked flag is set it returns Some of the NEGATION of is_locked (the
source reads has_parked().then(|| !(is_locked()))); otherwise None. -/
def RawPredicateLock.has_parked_then_is_locked (l : RawPredicateLock) : Option Bool :=
  if l.has_parked then some (!(l.is_locked)) else none

/-- Enum RequeueOp of the parking engine (the parking_lot_core operations
used by predicate_lock.rs). -/
inductive RequeueOp
  | UnparkOne
  | RequeueOne
  | RequeueAll
  | UnparkOneRequeueRest
  | Abort
deriving DecidableEq

/-- The validate closure of notify_one_slow, predicate_lock.rs lines
157-168: matching on has_parked_then_is_locked, Some true yields
RequeueOne (after re-marking parked), Some false yields UnparkOne, None
yields Abort. -/
def RawPredicateLock.notify_one_decide (l : RawPredicateLock) :
    RequeueOp × RawPredicateLock :=
  match l.has_parked_then_is_locked with
  | some true => (RequeueOp.RequeueOne, l.mark_parked)
  | some false => (RequeueOp.UnparkOne, l)
  | none => (RequeueOp.Abort, l)

/-- Result record of an unpark_requeue call (parking_lot_core
UnparkResult, as consumed in predicate_lock.rs lines 169-182). -/
structure UnparkResult where
  unparked_threads : Nat
  requeued_threads : Nat
  have_more_threads : Bool
deriving DecidableEq

/-- The parking engine applied to the wait queue of this lock, with the
queue modelled by the number of parked threads on the lock address.
UnparkOne wakes one queued thread if any; RequeueOne moves one thread,
here from the queue to itself (notify_one_slow passes the same address as
source and target, predicate_lock.rs lines 176-179); Abort touches
nothing. -/
def unpark_requeue (queued : Nat) (op : RequeueOp) : UnparkResult × Nat :=
  match op with
  | RequeueOp.UnparkOne =>
      (⟨min 1 queued, 0, decide (1 < queued)⟩, queued - min 1 queued)
  | RequeueOp.RequeueOne =>
      (⟨0, min 1 queued, decide (1 < queued)⟩, queued)
  | RequeueOp.RequeueAll => (⟨0, queued, false⟩, queued)
  | RequeueOp.UnparkOneRequeueRest =>
      (⟨min 1 queued, queued - min 1 queued, false⟩, queued - min 1 queued)
  | RequeueOp.Abort => (⟨0, 0, decide (0 < queued)⟩, queued)

/-- notify_one_slow, predicate_lock.rs lines 155-183: run the decide step,
hand the chosen operation to the parking engine, clear the parked flag
when no threads remain queued, and report whether the woken plus requeued
count is non-zero. -/
def RawPredicateLock.notify_one_slow (l : RawPredicateLock) (queued : Nat) :
    Bool × RawPredicateLock × Nat :=
  let d := l.notify_one_decide
  let r := unpark_requeue queued d.1
  let l2 := if !(r.1.have_more_threads) then d.2.mark_unparked else d.2
  (decide (r.1.unparked_threads + r.1.requeued_threads ≠ 0), l2, r.2)

/-- notify_one, predicate_lock.rs lines 144-151: when no waiters are
flagged as parked it returns false without touching the queue; otherwise
it runs the slow path. -/
def RawPredicateLock.notify_one (l : RawPredicateLock) (queued : Nat) :
    Bool × RawPredicateLock × Nat :=
  if l.has_parked then l.notify_one_slow queued else (false, l, queued)

/-- C7 evaluation at the failing input: the fast path is as claimed (no
parked flag means notify_one returns false and wakes nobody), but the
decide step is inverted with respect to the is_locked interface: with a
waiter parked and the lock still locked the code chooses UnparkOne (the
claim requires RequeueOne), and with a waiter parked and the lock now
unlocked the code chooses RequeueOne (the claim requires UnparkOne),
because has_parked_then_is_locked returns the negation of is_locked.
The Abort case (nothing parked) matches the claim. -/
theorem C7_notify_one_decide_inverted :
    (RawPredicateLock.mk true false).notify_one 5 =
      (false, RawPredicateLock.mk true false, 5) ∧
    ((RawPredicateLock.mk true true).notify_one_decide).1 = RequeueOp.UnparkOne ∧
    ((RawPredicateLock.mk false true).notify_one_decide).1 = RequeueOp.RequeueOne ∧
    ((RawPredicateLock.mk true false).notify_one_decide).1 = RequeueOp.Abort := by
  decide

/-! ### Executor scheduling (main.rs lines 1979-1992, 2417-2422, 2466-2525,
2639-2677, 2915-2955) -/

/-- Constant NUM_THREADS from main.rs line 23. -/
def NUM_THREADS : Nat := 8

/-- Enum RedistributeResult, main.rs lines 2417-2422. -/
inductive RedistributeResult
  | SurplusRequestsSent
  | SurplusesDistributed
  | NoDistributionRequired
  | NoPathsInFlight
deriving DecidableEq

/-- A message the Executor sends to a worker over its channels: either a
delivery of surplus work slices (dispatch_surplus, main.rs lines
2226-2239) or a surplus request of a given size (dispatch_surplus_request,
main.rs lines 2241-2245). -/
inductive ExecMsg
  | surplus (slices : List WorkSlice)
  | request (size : Nat)
deriving DecidableEq

/-- The Executor state components touched by the redistribution tick
(struct Executor, main.rs lines 1979-1992): each handle is represented by
the value its in_flight() accessor returns and its idle status (the value
is_idle() reports), together with the per-thread surplus slots and the
is_finished flag. -/
structure Executor where
  in_flights : List Nat
  idle : List Bool
  available_surplus : List (List WorkSlice)
  is_finished : Bool
deriving DecidableEq

/-- Executor update_available_surplus, main.rs lines 2487-2499: each
surplus slot is extended with the slices that arrived on the matching
surplus_fulfill channel; the channel contents are the incoming argument. -/
def Executor.update_available_surplus (e : Executor)
    (incoming : List (List WorkSlice)) : Executor :=
  { e with
    available_surplus :=
      (List.range e.available_surplus.length).map
        (fun i => e.available_surplus.getD i [] ++ incoming.getD i []) }

/-- Executor get_total_surplus, main.rs lines 2475-2485: the sum of the
lengths of all stored surplus slices. -/
def Executor.get_total_surplus (e : Executor) : Nat :=
  (e.available_surplus.map (fun slot => (slot.map WorkSlice.len).sum)).sum

/-- One step of the filter_map inside get_surplus_of_size, main.rs lines
2510-2519: carve will_give out of one stored surplus slice.  The
accumulator carries the still-unfulfilled amount and the result list; the
returned option is the slice remainder kept in the slot. -/
def take_from_slice (acc : Nat × List WorkSlice) (surplus : WorkSlice) :
    (Nat × List WorkSlice) × Option WorkSlice :=
  let p := if acc.1 < surplus.len then surplus.split acc.1 else (surplus, none)
  ((acc.1 - p.1.len, acc.2 ++ [p.1]), p.2)

/-- The per-slot pass of get_surplus_of_size: runs take_from_slice over
every slice of one slot, keeping the Some remainders (filter_map). -/
def take_from_slot (acc : Nat × List WorkSlice) (slot : List WorkSlice) :
    (Nat × List WorkSlice) × List WorkSlice :=
  slot.foldl
    (fun st s =>
      let r := take_from_slice st.1 s
      (r.1, st.2 ++ r.2.toList))
    (acc, [])

/-- Executor get_surplus_of_size, main.rs lines 2501-2525: walk the
surplus slots in order, carving slices into the result until the requested
size is covered, and store back the filtered slots. -/
def Executor.get_surplus_of_size (e : Executor) (size : Nat) :
    List WorkSlice × Executor :=
  let st := e.available_surplus.foldl
    (fun st slot =>
      let r := take_from_slot st.1 slot
      (r.1, st.2 ++ [r.2]))
    ((size, []), [])
  (st.1.2, { e with available_surplus := st.2 })

/-- The for loop of the surplus branch of redistribute_work, main.rs lines
2653-2665: for each handle index with its in_flight count, when in_flight
is not above the target the Executor carves a surplus of the target size
and dispatches it; the loop breaks as soon as the running surplus total
reaches zero.  The branch for in_flight above the target is empty in the
source (its dispatch is commented out). -/
def distribute_loop :
    List (Nat × Nat) → Executor → Nat → Nat → List (Nat × ExecMsg) →
      Executor × List (Nat × ExecMsg)
  | [], e, _total, _each, msgs => (e, msgs)
  | (ix, in_flight) :: rest, e, total, each, msgs =>
      let st :=
        if in_flight > each then (e, total, msgs)
        else
          let r := e.get_surplus_of_size each
          (r.2, total - min r.1.length total, msgs ++ [(ix, ExecMsg.surplus r.1)])
      if st.2.1 = 0 then (st.1, st.2.2)
      else distribute_loop rest st.1 st.2.1 each st.2.2

/-- Executor redistribute_work, main.rs lines 2639-2677: collect the
in_flight counts; when their maximum is positive, return
NoDistributionRequired at once.  Otherwise merge newly arrived surplus,
compute the per-thread target as the sum of in_flight counts divided by
NUM_THREADS, and either run the distribution loop (when stored surplus
exists) or send each handle whose in_flight exceeds the target a surplus
request for the difference.  The incoming argument carries the channel
contents consumed by update_available_surplus; the returned list carries
the messages dispatched to workers. -/
def Executor.redistribute_work (e : Executor) (incoming : List (List WorkSlice)) :
    RedistributeResult × Executor × List (Nat × ExecMsg) :=
  let in_flights := e.in_flights
  let max_in_flights := in_flights.foldl max 0
  if max_in_flights > 0 then
    (RedistributeResult.NoDistributionRequired, e, [])
  else
    let e1 := e.update_available_surplus incoming
    let each_thread_should_have := in_flights.sum / NUM_THREADS
    let total_surplus := e1.get_total_surplus
    if total_surplus > 0 then
      let r := distribute_loop in_flights.enum e1 total_surplus each_thread_should_have []
      (RedistributeResult.SurplusesDistributed, r.1, r.2)
    else
      (RedistributeResult.SurplusRequestsSent, e1,
        in_flights.enum.filterMap
          (fun p =>
            if p.2 > each_thread_should_have then
              some (p.1, ExecMsg.request (p.2 - each_thread_should_have))
            else none))

/-- The per-tick channel input consumed by one iteration of the execute
loop: the handle states after process_results and the status updates
(arbitrary, covering every possible worker behaviour), plus the surplus
fulfilments read by update_available_surplus. -/
structure ExecInput where
  in_flights : List Nat
  idle : List Bool
  incoming_surplus : List (List WorkSlice)

/-- One iteration of the loop body of Executor execute, main.rs lines
2920-2949: refresh the handle data from the channels (process_results and
the status receivers, here supplied as the tick input), run
redistribute_work, and set is_finished from the all-idle check exactly in
the NoPathsInFlight arm of the match (main.rs lines 2924-2934); every
other arm leaves is_finished untouched. -/
def Executor.execute_tick (e : Executor) (inp : ExecInput) : Executor :=
  let e1 := { e with in_flights := inp.in_flights, idle := inp.idle }
  let r := e1.redistribute_work inp.incoming_surplus
  match r.1 with
  | RedistributeResult.NoPathsInFlight =>
      { r.2.1 with is_finished := r.2.1.idle.all (fun b => b) }
  | _ => r.2.1

/-- The execute loop, main.rs lines 2915-2955: iterate ticks over the
stream of channel inputs, stopping as soon as is_finished is observed
true (the break at main.rs lines 2937-2945). -/
def Executor.execute_run : Executor → List ExecInput → Executor
  | e, [] => e
  | e, inp :: rest =>
      let e2 := e.execute_tick inp
      if e2.is_finished then e2 else e2.execute_run rest

theorem redistribute_work_ne_no_paths (e : Executor)
    (incoming : List (List WorkSlice)) :
    (e.redistribute_work incoming).1 ≠ RedistributeResult.NoPathsInFlight := by
  unfold Executor.redistribute_work
  dsimp only
  split
  · intro h; exact RedistributeResult.noConfusion h
  · split
    · intro h; exact RedistributeResult.noConfusion h
    · intro h; exact RedistributeResult.noConfusion h

theorem get_surplus_of_size_is_finished (e : Executor) (size : Nat) :
    (e.get_surplus_of_size size).2.is_finished = e.is_finished := rfl

theorem distribute_loop_is_finished :
    ∀ (ixs : List (Nat × Nat)) (e : Executor) (total each : Nat)
      (msgs : List (Nat × ExecMsg)),
      (distribute_loop ixs e total each msgs).1.is_finished = e.is_finished := by
  intro ixs
  induction ixs with
  | nil => intro e total each msgs; rfl
  | cons p rest ih =>
      intro e total each msgs
      obtain ⟨ix, in_flight⟩ := p
      unfold distribute_loop
      dsimp only
      by_cases hgt : in_flight > each
      · rw [if_pos hgt]
        dsimp only
        split
        · rfl
        · exact ih e total each msgs
      · rw [if_neg hgt]
        dsimp only
        split
        · exact get_surplus_of_size_is_finished e each
        · rw [ih]
          exact get_surplus_of_size_is_finished e each

theorem update_available_surplus_is_finished (e : Executor)
    (incoming : List (List WorkSlice)) :
    (e.update_available_surplus incoming).is_finished = e.is_finished := rfl

theorem redistribute_work_is_finished (e : Executor)
    (incoming : List (List WorkSlice)) :
    (e.redistribute_work incoming).2.1.is_finished = e.is_finished := by
  unfold Executor.redistribute_work
  dsimp only
  split
  · rfl
  · split
    · exact distribute_loop_is_finished _ _ _ _ _
    · rfl

theorem execute_tick_is_finished (e : Executor) (inp : ExecInput) :
    (e.execute_tick inp).is_finished = e.is_finished := by
  unfold Executor.execute_tick
  dsimp only
  have hne := redistribute_work_ne_no_paths
    { e with in_flights := inp.in_flights, idle := inp.idle } inp.incoming_surplus
  have hfin := redistribute_work_is_finished
    { e with in_flights := inp.in_flights, idle := inp.idle } inp.incoming_surplus
  split
  · next heq => exact absurd heq hne
  · exact hfin

/-- C1: the claimed termination path of Executor execute is unreachable:
whatever the workers report on their channels at every tick,
redistribute_work never returns NoPathsInFlight (it returns
NoDistributionRequired precisely when work IS in flight), so the all-idle
check that sets is_finished is dead code and the loop never breaks.  In
particular the run does not end when every worker simultaneously reports
Idle with zero in-flight and zero pending work, and the final
max_dir_size return statement is never reached on the claimed path. -/
theorem C1_execute_never_finishes (e : Executor) (inps : List ExecInput)
    (h : e.is_finished = false) :
    (e.execute_run inps).is_finished = false := by
  induction inps generalizing e with
  | nil => exact h
  | cons inp rest ih =>
      unfold Executor.execute_run
      dsimp only
      have htick : (e.execute_tick inp).is_finished = false :=
        (execute_tick_is_finished e inp).trans h
      rw [if_neg (by rw [htick]; exact Bool.false_ne_true)]
      exact ih _ htick

theorem C1_witness :
    ((Executor.mk (List.replicate 8 0) (List.replicate 8 true)
        (List.replicate 8 []) false).execute_run
      [ExecInput.mk (List.replicate 8 0) (List.replicate 8 true)
        (List.replicate 8 [])]).is_finished = false :=
  C1_execute_never_finishes
    (Executor.mk (List.replicate 8 0) (List.replicate 8 true)
      (List.replicate 8 []) false)
    [ExecInput.mk (List.replicate 8 0) (List.replicate 8 true)
      (List.replicate 8 [])]
    rfl

/-- C2 evaluation at the failing inputs: the guard of redistribute_work is
inverted with respect to the claim.  First scenario: one worker has 16
paths in flight and the others none (so the maximum is positive, the
claimed fair share would be 2, and the seven starved workers should
receive requests), yet the code returns NoDistributionRequired, changes
nothing and sends no message.  Second scenario: nothing is in flight
anywhere (the claimed all-idle case in which no redistribution should
happen) but a surplus slice is stored, and the code runs the distribution
branch and dispatches messages (of empty slices, since the computed fair
share is zero). -/
theorem C2_redistribute_guard_inverted :
    ((Executor.mk [16, 0, 0, 0, 0, 0, 0, 0] (List.replicate 8 false)
        (List.replicate 8 []) false).redistribute_work (List.replicate 8 [])
      = (RedistributeResult.NoDistributionRequired,
         Executor.mk [16, 0, 0, 0, 0, 0, 0, 0] (List.replicate 8 false)
           (List.replicate 8 []) false, [])) ∧
    (((Executor.mk (List.replicate 8 0) (List.replicate 8 true)
        ([[WorkSlice.new WorkSource.Shared 0 0 4]] ++ List.replicate 7 [])
        false).redistribute_work (List.replicate 8 [])).1
      = RedistributeResult.SurplusesDistributed) ∧
    (((Executor.mk (List.replicate 8 0) (List.replicate 8 true)
        ([[WorkSlice.new WorkSource.Shared 0 0 4]] ++ List.replicate 7 [])
        false).redistribute_work (List.replicate 8 [])).2.2 ≠ []) := by
  refine ⟨by decide, by decide, by decide⟩

end CountDir
